import Mathlib

/-!
Shallow embedding of the reconciliation core of `cloudbbq-homie`
(`src/bbq.rs`, with the name-selection fragment also present in
`src/main.rs`).  Rust `f32` temperatures are modelled as `ℚ`: the code
never computes on temperatures, it only parses, stores, copies and
republishes them.  Rust integer types are modelled as `Nat`, with the
`as u8` cast written as `% 256` where it occurs.  Fallible device
commands are modelled by an oracle `devOk : DeviceCommand → Bool`
(command success), and the property-tree (homie) operations are
recorded in an event trace; homie publish failures tear the session
down and are not modelled.  A Rust panic (`unwrap`, division by zero)
is modelled as `Option.none`.
-/

namespace Cloudbbq

/-! ### Constants (from the `const` block of `src/bbq.rs`) -/

def NODE_ID_BATTERY : String := "battery"

def PROPERTY_ID_VOLTAGE : String := "voltage"

def PROPERTY_ID_PERCENTAGE : String := "percentage"

def NODE_ID_SETTINGS : String := "settings"

def PROPERTY_ID_DISPLAY_UNIT : String := "unit"

def PROPERTY_ID_ALARM : String := "alarm"

def DISPLAY_UNIT_CELCIUS : String := "ºC"

def DISPLAY_UNIT_FAHRENHEIT : String := "ºF"

def NODE_ID_PROBE_PREFIX : String := "probe"

def PROPERTY_ID_TEMPERATURE : String := "temperature"

def PROPERTY_ID_TARGET_TEMPERATURE_MIN : String := "target_min"

def PROPERTY_ID_TARGET_TEMPERATURE_MAX : String := "target_max"

def PROPERTY_ID_TARGET_MODE : String := "mode"

def TARGET_MODE_NONE : String := "None"

def TARGET_MODE_SINGLE : String := "Maximum only"

def TARGET_MODE_RANGE : String := "Range"

/-! ### Data model (`TargetMode`, `Target`, `TargetState` from `src/bbq.rs`) -/

/-- Enum `TemperatureUnit` from the `cloudbbq` crate (spelling as in the source). -/
inductive TemperatureUnit where
  | celcius
  | fahrenheit
deriving DecidableEq

/-- Enum `TargetMode` (`None` / `Single` / `Range`), default `None`. -/
inductive TargetMode where
  | none
  | single
  | range
deriving DecidableEq

/-- Struct `Target`: the target mode and temperatures for a single probe.
Rust `#[derive(Default)]` gives mode `None` and `0.0` temperatures. -/
structure Target where
  mode : TargetMode
  temperature_min : ℚ
  temperature_max : ℚ
deriving DecidableEq

def Target.default : Target := ⟨TargetMode.none, 0, 0⟩

/-- Struct `TargetState`: map from probe index to target settings.  The Rust
`HashMap<u8, Target>` is embedded as an association list; lookup takes the
first binding for a key. -/
def TargetState := List (Nat × Target)

instance : DecidableEq TargetState := by
  unfold TargetState
  infer_instance

/-- Read of `TargetState::target(probe_index)`: the entry for the index, or
the `Default` target when the map has no entry (Rust `entry().or_default()`). -/
def getTarget : TargetState → Nat → Target
  | [], _ => Target.default
  | (j, t) :: rest, i => if i = j then t else getTarget rest i

/-- Whether the map already holds an entry for the index. -/
def hasTarget : TargetState → Nat → Bool
  | [], _ => false
  | (j, _) :: rest, i => i = j || hasTarget rest i

/-- Write-back of a mutated `Target` into the map: replace the binding for the
key, or append a fresh one (the insertion performed by `entry().or_default()`
followed by the field assignment). -/
def upsertTarget : TargetState → Nat → Target → TargetState
  | [], i, t => [(i, t)]
  | (j, u) :: rest, i, t =>
      if i = j then (i, t) :: rest else (j, u) :: upsertTarget rest i t

/-- Insertion effect of `entry().or_default()` on paths that read the entry but
end up not changing it (parse failure, unknown property, target restore): a
default entry is inserted when the key is absent. -/
def ensureTarget (ts : TargetState) (i : Nat) : TargetState :=
  if hasTarget ts i then ts else upsertTarget ts i Target.default

/-! ### Device commands, homie operations, event trace -/

/-- The typed device commands issued by the reconciliation core (`cloudbbq`
crate calls made in `src/bbq.rs`). -/
inductive DeviceCommand where
  | setTemperatureUnit (u : TemperatureUnit)
  | silenceAlarm
  | setTargetTemp (probe : Nat) (temp : ℚ)
  | setTargetRange (probe : Nat) (lo hi : ℚ)
  | removeTarget (probe : Nat)
deriving DecidableEq

/-- Values published onto the property tree (serialization elided, the typed
payload kept). -/
inductive PValue where
  | float (q : ℚ)
  | int (n : Nat)
  | bool (b : Bool)
  | mode (m : TargetMode)
deriving DecidableEq

/-- Property-tree operations performed through the `HomieDevice` handle.  The
node metadata passed to `add_node` (labels, property declarations from
`node_for_probe`) is elided; only the node id is kept. -/
inductive HomieOp where
  | addNode (node_id : String)
  | removeNode (node_id : String)
  | publishValue (node_id property_id : String) (v : PValue)
  | publishNonretainedValue (node_id property_id : String) (v : PValue)
deriving DecidableEq

/-- One step of observable behaviour: a device command issued or a homie
operation performed, in program order. -/
inductive Event where
  | cmd (c : DeviceCommand)
  | homie (op : HomieOp)
deriving DecidableEq

/-! ### Parsers (Rust `FromStr` uses in `src/bbq.rs`) -/

def isDigitChar (c : Char) : Bool := '0' ≤ c && c ≤ '9'

def charDigit (c : Char) : Option Nat :=
  if isDigitChar c then Option.some (c.toNat - 48) else Option.none

/-- Accumulating decimal scan; fails on any non-digit character. -/
def parseDigitsFrom : List Char → Nat → Option Nat
  | [], acc => Option.some acc
  | c :: cs, acc =>
      match charDigit c with
      | Option.some d => parseDigitsFrom cs (acc * 10 + d)
      | Option.none => Option.none

/-- Nonempty all-digit string to `Nat`. -/
def parseNatAll (cs : List Char) : Option Nat :=
  if cs.isEmpty then Option.none else parseDigitsFrom cs 0

/-- Drop a leading `+` sign if present (the sign handling of Rust
`u8::from_str`). -/
def stripSign (cs : List Char) : List Char :=
  match cs with
  | c :: rest => if c = '+' then rest else c :: rest
  | [] => []

/-- Rust `u8::from_str`: optional leading `+`, then a nonempty digit string,
rejecting values above `u8::MAX`. -/
def parse_u8 (s : String) : Option Nat :=
  match parseNatAll (stripSign s.data) with
  | Option.some n => if n ≤ 255 then Option.some n else Option.none
  | Option.none => Option.none

/-- Value of a digit-character list read as a decimal numeral. -/
def digitsToNat (cs : List Char) : Nat :=
  cs.foldl (fun acc c => acc * 10 + (c.toNat - 48)) 0

/-- Unsigned decimal literal (`digits`, `digits.digits`, `digits.`, `.digits`)
as a rational. -/
def parseDecimal (cs : List Char) : Option ℚ :=
  let ip := cs.takeWhile isDigitChar
  let rest := cs.dropWhile isDigitChar
  match rest with
  | [] => if ip.isEmpty then Option.none else Option.some (digitsToNat ip)
  | '.' :: fracCs =>
      if fracCs.all isDigitChar && !(ip.isEmpty && fracCs.isEmpty) then
        Option.some ((digitsToNat ip : ℚ) + (digitsToNat fracCs : ℚ) / (10 ^ fracCs.length))
      else Option.none
  | _ => Option.none

/-- Rust `f32::from_str` restricted to the plain decimal-literal fragment
(optional sign, decimal digits, optional fraction); the exponent / `inf` /
`NaN` forms of the grammar are not exercised by this core's specification and
are left out.  Exact on every input considered in the theorems below. -/
def parse_float (s : String) : Option ℚ :=
  match s.data with
  | '-' :: cs => (parseDecimal cs).map Neg.neg
  | '+' :: cs => parseDecimal cs
  | cs => parseDecimal cs

/-- Rust `bool::from_str`: exactly `true` or `false`. -/
def parse_bool (s : String) : Option Bool :=
  if s = "true" then Option.some true
  else if s = "false" then Option.some false
  else Option.none

/-- `FromStr for TargetMode` from `src/bbq.rs`. -/
def TargetMode.fromStr (s : String) : Option TargetMode :=
  if s = TARGET_MODE_NONE then Option.some TargetMode.none
  else if s = TARGET_MODE_SINGLE then Option.some TargetMode.single
  else if s = TARGET_MODE_RANGE then Option.some TargetMode.range
  else Option.none

/-- `parse_display_unit` from `src/bbq.rs`. -/
def parse_display_unit (value : String) : Option TemperatureUnit :=
  if value = DISPLAY_UNIT_CELCIUS then Option.some TemperatureUnit.celcius
  else if value = DISPLAY_UNIT_FAHRENHEIT then Option.some TemperatureUnit.fahrenheit
  else Option.none

/-! ### Node-id formatting and parsing -/

/-- Decimal digit to its character, as produced by Rust `format!`. -/
def digitChar : Nat → Char
  | 0 => '0'
  | 1 => '1'
  | 2 => '2'
  | 3 => '3'
  | 4 => '4'
  | 5 => '5'
  | 6 => '6'
  | 7 => '7'
  | 8 => '8'
  | 9 => '9'
  | _ => '*'

/-- Fuel-driven most-significant-first decimal rendering of a positive `Nat`
(fuel-structural so that it evaluates by kernel reduction). -/
def natReprAux : Nat → Nat → List Char
  | 0, _ => []
  | fuel + 1, n => if n = 0 then [] else natReprAux fuel (n / 10) ++ [digitChar (n % 10)]

/-- Decimal rendering of a `Nat`, as produced by Rust `format!("{}", n)`. -/
def natRepr (n : Nat) : String :=
  if n = 0 then "0" else String.mk (natReprAux (n + 1) n)

/-- The node id `format!("{}{}", NODE_ID_PROBE_PREFIX, probe_index)` built in
`handle_realtime_data`. -/
def probe_node_id (i : Nat) : String := NODE_ID_PROBE_PREFIX ++ natRepr i

/-- `probe_id_to_index` from `src/bbq.rs`: strip the fixed prefix, then parse
the numeric suffix as a `u8`. -/
def probe_id_to_index (probe_id : String) : Option Nat :=
  if NODE_ID_PROBE_PREFIX.data.isPrefixOf probe_id.data then
    parse_u8 (String.mk (probe_id.data.drop NODE_ID_PROBE_PREFIX.data.length))
  else Option.none

/-! ### Remote-write handler (`Bbq::handle_update`) -/

/-- The single device call issued by `set_target` for a target: remove for
mode `None`, a single maximum for `Single`, a half-open range for `Range`.
Success of the call is given by the device oracle. -/
def set_target_command (probe_index : Nat) (target : Target) : DeviceCommand :=
  match target.mode with
  | TargetMode.none => DeviceCommand.removeTarget probe_index
  | TargetMode.single => DeviceCommand.setTargetTemp probe_index target.temperature_max
  | TargetMode.range =>
      DeviceCommand.setTargetRange probe_index target.temperature_min target.temperature_max

/-- The inner `match property_id` of the probe branch of `handle_update`:
parse the written value per field (float for the temperatures, a mode label
for the mode) and assign the parsed value into the corresponding field of the
target; `Option.none` for a parse failure or an unknown property id. -/
def parse_target_field (property_id value : String) (t : Target) : Option Target :=
  if property_id = PROPERTY_ID_TARGET_TEMPERATURE_MIN then
    (parse_float value).map (fun x => { t with temperature_min := x })
  else if property_id = PROPERTY_ID_TARGET_TEMPERATURE_MAX then
    (parse_float value).map (fun x => { t with temperature_max := x })
  else if property_id = PROPERTY_ID_TARGET_MODE then
    (TargetMode.fromStr value).map (fun m => { t with mode := m })
  else Option.none

/-- Result of one `handle_update` call: the target store after the call, the
device command issued (at most one per call in the source), and the returned
echo (`Some(value)` acknowledges the write; `None` rejects it). -/
structure UpdateResult where
  state : TargetState
  command : Option DeviceCommand
  echo : Option String
deriving DecidableEq

/-- `Bbq::handle_update` from `src/bbq.rs`: dispatch on node id and property
id; settings/unit and settings/alarm first, then the probe branch keyed by
`probe_id_to_index`, otherwise reject.  On the probe branch the store entry is
mutated before the command is issued and is not rolled back on a command
failure; `ensureTarget` records the entry insertion done by
`entry().or_default()` on the paths that reject after reading the entry. -/
def handle_update (devOk : DeviceCommand → Bool) (ts : TargetState)
    (node_id property_id value : String) : UpdateResult :=
  if node_id = NODE_ID_SETTINGS ∧ property_id = PROPERTY_ID_DISPLAY_UNIT then
    match parse_display_unit value with
    | Option.none => ⟨ts, Option.none, Option.none⟩
    | Option.some u =>
        let c := DeviceCommand.setTemperatureUnit u
        ⟨ts, Option.some c, if devOk c then Option.some value else Option.none⟩
  else if node_id = NODE_ID_SETTINGS ∧ property_id = PROPERTY_ID_ALARM then
    match parse_bool value with
    | Option.none => ⟨ts, Option.none, Option.none⟩
    | Option.some true => ⟨ts, Option.none, Option.none⟩
    | Option.some false =>
        let c := DeviceCommand.silenceAlarm
        ⟨ts, Option.some c, if devOk c then Option.some value else Option.none⟩
  else
    match probe_id_to_index node_id with
    | Option.none => ⟨ts, Option.none, Option.none⟩
    | Option.some probe_index =>
        match parse_target_field property_id value (getTarget ts probe_index) with
        | Option.none => ⟨ensureTarget ts probe_index, Option.none, Option.none⟩
        | Option.some t1 =>
            let c := set_target_command probe_index t1
            ⟨upsertTarget ts probe_index t1, Option.some c,
              if devOk c then Option.some value else Option.none⟩

/-! ### Setting results (`Bbq::handle_setting_result`) -/

/-- Enum `SettingResult` from the `cloudbbq` crate (the variants this core
consumes; voltages are `u16`). -/
inductive SettingResult where
  | batteryLevel (current_voltage max_voltage : Nat)
  | silencePressed
  | other
deriving DecidableEq

/-- `Bbq::handle_setting_result` from `src/bbq.rs`: a battery-level result
publishes the raw voltage and the percentage
`current_voltage as u32 * 100 / max_voltage as u32` (truncating integer
division, which panics when `max_voltage = 0` — modelled as `Option.none`;
for `u16` voltages the `u32` product cannot overflow, so plain `Nat`
arithmetic is exact).  A silence-pressed result publishes a non-retained
`alarm = false`; other results are ignored. -/
def handle_setting_result (result : SettingResult) : Option (List HomieOp) :=
  match result with
  | SettingResult.batteryLevel cv mv =>
      if mv = 0 then Option.none
      else
        Option.some
          [HomieOp.publishValue NODE_ID_BATTERY PROPERTY_ID_VOLTAGE (PValue.int cv),
           HomieOp.publishValue NODE_ID_BATTERY PROPERTY_ID_PERCENTAGE
             (PValue.int (cv * 100 / mv))]
  | SettingResult.silencePressed =>
      Option.some
        [HomieOp.publishNonretainedValue NODE_ID_SETTINGS PROPERTY_ID_ALARM
          (PValue.bool false)]
  | SettingResult.other => Option.some []

/-! ### Telemetry frames (`Bbq::handle_realtime_data` and `Bbq::add_probe`) -/

/-- Struct `RealTimeData` from the `cloudbbq` crate: one optional temperature
per probe slot. -/
structure RealTimeData where
  probe_temperatures : List (Option ℚ)

/-- Session state touched by a telemetry frame: the homie node ids currently
advertised, and the target store. -/
structure FrameResult where
  nodes : List String
  targets : TargetState
  events : List Event
  ok : Bool

/-- One iteration of the `handle_realtime_data` loop for slot `i`.  A present
reading on a fresh node inlines `Bbq::add_probe`: add the node, issue the
`set_target` command for the cached target (the probe index cast `as u8`,
hence `% 256`), publish the cached mode / min / max, and only then the
temperature; a failing `set_target` aborts the frame (`?` propagation) with
the node already added.  A present reading on an existing node publishes the
temperature only; an absent reading removes the node if it exists. -/
def probe_slot (devOk : DeviceCommand → Bool) (nodes : List String)
    (ts : TargetState) (i : Nat) (temperature : Option ℚ) : FrameResult :=
  let node_id := probe_node_id i
  match temperature with
  | Option.some t =>
      if node_id ∈ nodes then
        ⟨nodes, ts,
          [Event.homie (HomieOp.publishValue node_id PROPERTY_ID_TEMPERATURE (PValue.float t))],
          true⟩
      else
        let key := i % 256
        let target := getTarget ts key
        let c := set_target_command key target
        if devOk c then
          ⟨node_id :: nodes, ensureTarget ts key,
            [Event.homie (HomieOp.addNode node_id), Event.cmd c,
             Event.homie (HomieOp.publishValue node_id PROPERTY_ID_TARGET_MODE
               (PValue.mode target.mode)),
             Event.homie (HomieOp.publishValue node_id PROPERTY_ID_TARGET_TEMPERATURE_MIN
               (PValue.float target.temperature_min)),
             Event.homie (HomieOp.publishValue node_id PROPERTY_ID_TARGET_TEMPERATURE_MAX
               (PValue.float target.temperature_max)),
             Event.homie (HomieOp.publishValue node_id PROPERTY_ID_TEMPERATURE
               (PValue.float t))],
            true⟩
        else
          ⟨node_id :: nodes, ensureTarget ts key,
            [Event.homie (HomieOp.addNode node_id), Event.cmd c], false⟩
  | Option.none =>
      if node_id ∈ nodes then
        ⟨nodes.erase node_id, ts, [Event.homie (HomieOp.removeNode node_id)], true⟩
      else
        ⟨nodes, ts, [], true⟩

/-- The `enumerate` loop of `handle_realtime_data`: probe slots in ascending
index order, starting at `i`; a failed slot stops the frame with the events
already performed. -/
def run_slots (devOk : DeviceCommand → Bool) :
    List String → TargetState → Nat → List (Option ℚ) → FrameResult
  | nodes, ts, _, [] => ⟨nodes, ts, [], true⟩
  | nodes, ts, i, t :: rest =>
      let r := probe_slot devOk nodes ts i t
      if r.ok then
        let r2 := run_slots devOk r.nodes r.targets (i + 1) rest
        ⟨r2.nodes, r2.targets, r.events ++ r2.events, r2.ok⟩
      else ⟨r.nodes, r.targets, r.events, false⟩

/-- `Bbq::handle_realtime_data` from `src/bbq.rs`. -/
def handle_realtime_data (devOk : DeviceCommand → Bool) (nodes : List String)
    (ts : TargetState) (data : RealTimeData) : FrameResult :=
  run_slots devOk nodes ts 0 data.probe_temperatures

/-! ### Connect-time display name (`Bbq::connect`, also `BBQ::connect` in
`src/main.rs`) -/

/-- The name-selection fragment of `connect`:
`let bluetooth_device_name = device.name.unwrap();`
`let name = device_config.name.clone().unwrap_or(bluetooth_device_name);`.
The unconditional `unwrap` of the Bluetooth name happens before the
configured name is consulted (in `src/main.rs` it is the eagerly evaluated
argument of `unwrap_or`), so an absent Bluetooth name panics — modelled as
`Option.none` — even when a configured name exists. -/
def connect_display_name (configured_name bluetooth_name : Option String) :
    Option String :=
  match bluetooth_name with
  | Option.none => Option.none
  | Option.some bt => Option.some (configured_name.getD bt)

/-- Whether an event is a publish of the `temperature` property of the given
node (used to state the restore-before-first-temperature ordering). -/
def is_temp_publish (node_id : String) : Event → Bool
  | Event.homie (HomieOp.publishValue n p _) => n = node_id && p = PROPERTY_ID_TEMPERATURE
  | _ => false

/-! ### Helper lemmas: target store -/

theorem getTarget_upsert_self (ts : TargetState) (i : Nat) (t : Target) :
    getTarget (upsertTarget ts i t) i = t := by
  induction ts with
  | nil => simp [upsertTarget, getTarget]
  | cons hd rest ih =>
      obtain ⟨j, u⟩ := hd
      by_cases h : i = j
      · simp [upsertTarget, getTarget, h]
      · simp [upsertTarget, getTarget, h, ih]

theorem getTarget_upsert_other (ts : TargetState) (i j : Nat) (t : Target)
    (h : j ≠ i) : getTarget (upsertTarget ts i t) j = getTarget ts j := by
  induction ts with
  | nil => simp [upsertTarget, getTarget, h]
  | cons hd rest ih =>
      obtain ⟨k, u⟩ := hd
      by_cases hik : i = k
      · subst hik
        simp [upsertTarget, getTarget, h]
      · by_cases hjk : j = k
        · simp [upsertTarget, getTarget, hik, hjk]
        · simp [upsertTarget, getTarget, hik, hjk, ih]

theorem getTarget_of_not_hasTarget (ts : TargetState) (i : Nat)
    (h : hasTarget ts i = false) : getTarget ts i = Target.default := by
  induction ts with
  | nil => simp [getTarget]
  | cons hd rest ih =>
      obtain ⟨j, u⟩ := hd
      simp only [hasTarget, Bool.or_eq_false_iff, decide_eq_false_iff_not] at h
      simp [getTarget, h.1, ih h.2]

theorem getTarget_ensure (ts : TargetState) (i j : Nat) :
    getTarget (ensureTarget ts i) j = getTarget ts j := by
  unfold ensureTarget
  by_cases h : hasTarget ts i
  · simp [h]
  · simp only [Bool.not_eq_true] at h
    simp only [h, Bool.false_eq_true, if_false]
    by_cases hji : j = i
    · subst hji
      rw [getTarget_upsert_self, getTarget_of_not_hasTarget ts j h]
    · rw [getTarget_upsert_other ts i j _ hji]

theorem hasTarget_upsert_self (ts : TargetState) (i : Nat) (t : Target) :
    hasTarget (upsertTarget ts i t) i = true := by
  induction ts with
  | nil => simp [upsertTarget, hasTarget]
  | cons hd rest ih =>
      obtain ⟨j, u⟩ := hd
      by_cases h : i = j
      · simp [upsertTarget, hasTarget, h]
      · simp [upsertTarget, hasTarget, h, ih]

theorem ensure_ensure (ts : TargetState) (i : Nat) :
    ensureTarget (ensureTarget ts i) i = ensureTarget ts i := by
  unfold ensureTarget
  by_cases h : hasTarget ts i
  · simp [h]
  · simp only [Bool.not_eq_true] at h
    simp [h, hasTarget_upsert_self]

theorem upsert_upsert (ts : TargetState) (i : Nat) (t t' : Target) :
    upsertTarget (upsertTarget ts i t) i t' = upsertTarget ts i t' := by
  induction ts with
  | nil => simp [upsertTarget]
  | cons hd rest ih =>
      obtain ⟨j, u⟩ := hd
      by_cases h : i = j
      · simp [upsertTarget, h]
      · simp [upsertTarget, h, ih]

/-! ### Helper lemmas: decimal rendering and parsing round trip -/

theorem charDigit_digitChar : ∀ d < 10, charDigit (digitChar d) = Option.some d := by
  decide

theorem digitChar_ne_plus : ∀ d < 10, digitChar d ≠ '+' := by decide

theorem natReprAux_eq_digits :
    ∀ fuel n, n ≤ fuel → natReprAux fuel n = ((Nat.digits 10 n).reverse.map digitChar) := by
  intro fuel
  induction fuel with
  | zero =>
      intro n hn
      interval_cases n
      simp [natReprAux]
  | succ fuel ih =>
      intro n hn
      by_cases h0 : n = 0
      · subst h0
        simp [natReprAux]
      · have hpos : 0 < n := Nat.pos_of_ne_zero h0
        have hdiv : n / 10 ≤ fuel := by
          have : n / 10 < n := Nat.div_lt_self hpos (by norm_num)
          omega
        have hstep : natReprAux (fuel + 1) n =
            natReprAux fuel (n / 10) ++ [digitChar (n % 10)] := by
          simp [natReprAux, h0]
        rw [hstep, ih (n / 10) hdiv,
          Nat.digits_def' (by norm_num : (1:ℕ) < 10) hpos]
        simp

theorem parseDigitsFrom_map :
    ∀ (ds : List Nat) (acc : Nat), (∀ d ∈ ds, d < 10) →
      parseDigitsFrom (ds.map digitChar) acc =
        Option.some (ds.foldl (fun a d => a * 10 + d) acc) := by
  intro ds
  induction ds with
  | nil => intro acc _; simp [parseDigitsFrom]
  | cons d ds' ih =>
      intro acc h
      have hd := h d (List.mem_cons_self d ds')
      simp only [List.map_cons, parseDigitsFrom, charDigit_digitChar d hd]
      rw [ih (acc * 10 + d) (fun x hx => h x (List.mem_cons_of_mem d hx))]
      simp [List.foldl_cons]

theorem foldl_reverse_horner :
    ∀ (L : List Nat) (acc : Nat),
      L.reverse.foldl (fun a d => a * 10 + d) acc =
        acc * 10 ^ L.length + Nat.ofDigits 10 L := by
  intro L
  induction L with
  | nil => intro acc; simp [Nat.ofDigits]
  | cons d L' ih =>
      intro acc
      simp only [List.reverse_cons, List.foldl_append, List.foldl_cons, List.foldl_nil,
        ih acc, Nat.ofDigits_cons, List.length_cons]
      ring

theorem natRepr_data_pos (n : Nat) (h0 : n ≠ 0) :
    (natRepr n).data = (Nat.digits 10 n).reverse.map digitChar := by
  simp [natRepr, h0, natReprAux_eq_digits (n + 1) n (Nat.le_succ n)]

theorem parseNatAll_natRepr (n : Nat) : parseNatAll (natRepr n).data = Option.some n := by
  by_cases h0 : n = 0
  · subst h0; decide
  · rw [natRepr_data_pos n h0]
    have hne : Nat.digits 10 n ≠ [] := Nat.digits_ne_nil_iff_ne_zero.mpr h0
    have hlt : ∀ d ∈ (Nat.digits 10 n).reverse, d < 10 := by
      intro d hd
      exact Nat.digits_lt_base (by norm_num) (List.mem_reverse.mp hd)
    unfold parseNatAll
    rw [if_neg (by simpa using hne)]
    rw [parseDigitsFrom_map _ 0 hlt, foldl_reverse_horner]
    simp [Nat.ofDigits_digits]

theorem natRepr_inj : Function.Injective natRepr := by
  intro m n h
  have h1 := parseNatAll_natRepr m
  rw [h] at h1
  rw [parseNatAll_natRepr n] at h1
  exact (Option.some.injEq _ _).mp h1.symm

theorem probe_node_id_inj {a b : Nat} (h : probe_node_id a = probe_node_id b) :
    a = b := by
  unfold probe_node_id at h
  have hdata := congrArg String.data h
  rw [String.data_append, String.data_append] at hdata
  have hd := List.append_cancel_left hdata
  exact natRepr_inj (congrArg String.mk hd)

theorem natRepr_head_ne_plus (n : Nat) :
    stripSign (natRepr n).data = (natRepr n).data := by
  by_cases h0 : n = 0
  · subst h0; decide
  · rw [natRepr_data_pos n h0]
    have hne : Nat.digits 10 n ≠ [] := Nat.digits_ne_nil_iff_ne_zero.mpr h0
    cases hdig : (Nat.digits 10 n).reverse with
    | nil => exact absurd (by simpa using hdig) hne
    | cons d rest =>
        have hd : d < 10 := Nat.digits_lt_base (by norm_num)
          (List.mem_reverse.mp (by rw [hdig]; exact List.mem_cons_self d rest))
        simp [stripSign, digitChar_ne_plus d hd]

theorem parse_u8_natRepr (n : Nat) (h : n ≤ 255) :
    parse_u8 (natRepr n) = Option.some n := by
  unfold parse_u8
  rw [natRepr_head_ne_plus, parseNatAll_natRepr]
  simp [h]

theorem probe_id_to_index_roundtrip (n : Nat) (h : n ≤ 255) :
    probe_id_to_index (probe_node_id n) = Option.some n := by
  unfold probe_id_to_index probe_node_id
  rw [String.data_append]
  rw [if_pos (by rw [List.isPrefixOf_iff_prefix]; exact List.prefix_append _ _)]
  rw [List.drop_left]
  exact parse_u8_natRepr n h

theorem probe_id_to_index_le (s : String) (i : Nat)
    (h : probe_id_to_index s = Option.some i) : i ≤ 255 := by
  unfold probe_id_to_index at h
  by_cases hp : NODE_ID_PROBE_PREFIX.data.isPrefixOf s.data
  · rw [if_pos hp] at h
    unfold parse_u8 at h
    cases hpn : parseNatAll (stripSign (String.mk (s.data.drop NODE_ID_PROBE_PREFIX.data.length)).data) with
    | none => rw [hpn] at h; exact absurd h (by simp)
    | some n =>
        rw [hpn] at h
        by_cases hle : n ≤ 255
        · simp [hle] at h
          omega
        · simp [hle] at h
  · rw [if_neg hp] at h
    exact absurd h (by simp)


/-! ### Helper lemmas: `handle_update`, probe branch -/

theorem handle_update_probe (devOk : DeviceCommand → Bool) (ts : TargetState)
    (node_id property_id value : String) (i : Nat)
    (hi : probe_id_to_index node_id = Option.some i)
    (hpid : property_id = PROPERTY_ID_TARGET_TEMPERATURE_MIN ∨
            property_id = PROPERTY_ID_TARGET_TEMPERATURE_MAX ∨
            property_id = PROPERTY_ID_TARGET_MODE) :
    handle_update devOk ts node_id property_id value =
      match parse_target_field property_id value (getTarget ts i) with
      | Option.none => ⟨ensureTarget ts i, Option.none, Option.none⟩
      | Option.some t1 =>
          ⟨upsertTarget ts i t1, Option.some (set_target_command i t1),
            if devOk (set_target_command i t1) then Option.some value
            else Option.none⟩ := by
  have h1 : ¬(node_id = NODE_ID_SETTINGS ∧ property_id = PROPERTY_ID_DISPLAY_UNIT) := by
    rcases hpid with h | h | h <;> subst h <;> exact fun hc => absurd hc.2 (by decide)
  have h2 : ¬(node_id = NODE_ID_SETTINGS ∧ property_id = PROPERTY_ID_ALARM) := by
    rcases hpid with h | h | h <;> subst h <;> exact fun hc => absurd hc.2 (by decide)
  unfold handle_update
  rw [if_neg h1, if_neg h2, hi]

/-! ### Helper lemmas: event traces -/

theorem mem_take_of_getElem {α : Type} (l : List α) (m j : Nat) (x : α)
    (h : l[m]? = Option.some x) (hmj : m < j) : x ∈ l.take j := by
  have h2 : (l.take j)[m]? = Option.some x := by
    rw [List.getElem?_take]
    simp [hmj, h]
  exact List.getElem?_mem h2

theorem mem_take_append {α : Type} (l1 l2 : List α) (j : Nat) (x : α)
    (h : x ∈ l2.take (j - l1.length)) : x ∈ (l1 ++ l2).take j := by
  rw [List.take_append_eq_append_take]
  exact List.mem_append_right _ h

/-! ### Helper lemmas: telemetry frame processing -/

theorem probe_slot_targets (devOk : DeviceCommand → Bool) (nodes : List String)
    (ts : TargetState) (i : Nat) (temp : Option ℚ) (j : Nat) :
    getTarget (probe_slot devOk nodes ts i temp).targets j = getTarget ts j := by
  unfold probe_slot
  cases temp with
  | none => by_cases h : probe_node_id i ∈ nodes <;> simp [h]
  | some t =>
      by_cases h : probe_node_id i ∈ nodes
      · simp [h]
      · by_cases hd : devOk (set_target_command (i % 256) (getTarget ts (i % 256))) <;>
          simp [h, hd, getTarget_ensure]

theorem run_slots_targets (devOk : DeviceCommand → Bool) :
    ∀ (rest : List (Option ℚ)) (nodes : List String) (ts : TargetState) (i j : Nat),
      getTarget (run_slots devOk nodes ts i rest).targets j = getTarget ts j := by
  intro rest
  induction rest with
  | nil => intro nodes ts i j; simp [run_slots]
  | cons t0 rest ih =>
      intro nodes ts i j
      unfold run_slots
      by_cases hok : (probe_slot devOk nodes ts i t0).ok
      · simp only [hok, if_true]
        rw [ih]
        exact probe_slot_targets devOk nodes ts i t0 j
      · simp only [hok, Bool.false_eq_true, if_false]
        exact probe_slot_targets devOk nodes ts i t0 j

theorem probe_slot_nodes_other (devOk : DeviceCommand → Bool) (nodes : List String)
    (ts : TargetState) (i : Nat) (temp : Option ℚ) (x : String)
    (hx : x ≠ probe_node_id i) :
    (x ∈ (probe_slot devOk nodes ts i temp).nodes ↔ x ∈ nodes) := by
  unfold probe_slot
  cases temp with
  | some t =>
      by_cases h : probe_node_id i ∈ nodes
      · simp [h]
      · by_cases hd : devOk (set_target_command (i % 256) (getTarget ts (i % 256))) <;>
          simp [h, hd, List.mem_cons, hx]
  | none =>
      by_cases h : probe_node_id i ∈ nodes
      · simp [h, List.mem_erase_of_ne hx]
      · simp [h]

theorem run_slots_nodes_other (devOk : DeviceCommand → Bool) :
    ∀ (rest : List (Option ℚ)) (nodes : List String) (ts : TargetState) (i : Nat)
      (x : String), (∀ m, m < rest.length → x ≠ probe_node_id (i + m)) →
      (x ∈ (run_slots devOk nodes ts i rest).nodes ↔ x ∈ nodes) := by
  intro rest
  induction rest with
  | nil => intro nodes ts i x _; simp [run_slots]
  | cons t0 rest ih =>
      intro nodes ts i x hx
      have hx0 : x ≠ probe_node_id i := by
        have := hx 0 (by simp)
        simpa using this
      unfold run_slots
      by_cases hok : (probe_slot devOk nodes ts i t0).ok
      · simp only [hok, if_true]
        rw [ih _ _ (i + 1) x (fun m hm => by
          have := hx (m + 1) (by simpa using Nat.succ_lt_succ hm)
          simpa [Nat.add_assoc, Nat.add_comm 1 m] using this)]
        exact probe_slot_nodes_other devOk nodes ts i t0 x hx0
      · simp only [hok, Bool.false_eq_true, if_false]
        exact probe_slot_nodes_other devOk nodes ts i t0 x hx0

theorem probe_slot_nodup (devOk : DeviceCommand → Bool) (nodes : List String)
    (ts : TargetState) (i : Nat) (temp : Option ℚ) (h : nodes.Nodup) :
    (probe_slot devOk nodes ts i temp).nodes.Nodup := by
  unfold probe_slot
  cases temp with
  | some t =>
      by_cases hm : probe_node_id i ∈ nodes
      · simp [hm, h]
      · by_cases hd : devOk (set_target_command (i % 256) (getTarget ts (i % 256))) <;>
          simp [hm, hd, List.nodup_cons, h]
  | none =>
      by_cases hm : probe_node_id i ∈ nodes
      · simp [hm, h.erase _]
      · simp [hm, h]

theorem run_slots_nodup (devOk : DeviceCommand → Bool) :
    ∀ (rest : List (Option ℚ)) (nodes : List String) (ts : TargetState) (i : Nat),
      nodes.Nodup → (run_slots devOk nodes ts i rest).nodes.Nodup := by
  intro rest
  induction rest with
  | nil => intro nodes ts i h; simpa [run_slots] using h
  | cons t0 rest ih =>
      intro nodes ts i h
      unfold run_slots
      by_cases hok : (probe_slot devOk nodes ts i t0).ok
      · simp only [hok, if_true]
        exact ih _ _ (i + 1) (probe_slot_nodup devOk nodes ts i t0 h)
      · simp only [hok, Bool.false_eq_true, if_false]
        exact probe_slot_nodup devOk nodes ts i t0 h

theorem run_slots_mem_iff (devOk : DeviceCommand → Bool) :
    ∀ (rest : List (Option ℚ)) (nodes : List String) (ts : TargetState) (i k : Nat),
      nodes.Nodup → (run_slots devOk nodes ts i rest).ok = true → k < rest.length →
      (probe_node_id (i + k) ∈ (run_slots devOk nodes ts i rest).nodes ↔
        ∃ t, rest[k]? = Option.some (Option.some t)) := by
  intro rest
  induction rest with
  | nil => intro nodes ts i k _ _ hk; simp at hk
  | cons t0 rest ih =>
      intro nodes ts i k hnd hok hk
      have hrok : (probe_slot devOk nodes ts i t0).ok = true := by
        by_cases h : (probe_slot devOk nodes ts i t0).ok
        · exact h
        · unfold run_slots at hok
          simp [h] at hok
      unfold run_slots at hok ⊢
      simp only [hrok, if_true] at hok ⊢
      cases k with
      | zero =>
          rw [run_slots_nodes_other devOk rest _ _ (i + 1) (probe_node_id (i + 0))
            (fun m hm heq => by
              have := probe_node_id_inj heq
              omega)]
          simp only [Nat.add_zero, List.getElem?_cons_zero]
          cases t0 with
          | some t =>
              constructor
              · intro _; exact ⟨t, rfl⟩
              · intro _
                unfold probe_slot
                by_cases hm : probe_node_id i ∈ nodes
                · simp [hm]
                · by_cases hd : devOk (set_target_command (i % 256) (getTarget ts (i % 256))) <;>
                    simp [hm, hd]
          | none =>
              constructor
              · intro hmem
                exfalso
                unfold probe_slot at hmem
                by_cases hm : probe_node_id i ∈ nodes
                · simp only [hm, if_true] at hmem
                  exact absurd (hnd.mem_erase_iff.mp hmem).1 (by simp)
                · simp only [hm] at hmem
                  simp at hmem
                  exact hm hmem
              · rintro ⟨t, ht⟩
                simp at ht
      | succ k =>
          have hshift : i + (k + 1) = (i + 1) + k := by omega
          rw [hshift]
          rw [ih _ _ (i + 1) k (probe_slot_nodup devOk nodes ts i t0 hnd) hok
            (by simpa using Nat.lt_of_succ_lt_succ (by simpa using hk))]
          simp

theorem probe_slot_temp_publish (devOk : DeviceCommand → Bool) (nodes : List String)
    (ts : TargetState) (i : Nat) (temp : Option ℚ) (x : String) (e : Event)
    (he : e ∈ (probe_slot devOk nodes ts i temp).events)
    (ht : is_temp_publish x e = true) : x = probe_node_id i := by
  unfold probe_slot at he
  cases temp with
  | some t =>
      by_cases hm : probe_node_id i ∈ nodes
      · simp only [hm, if_true, List.mem_singleton] at he
        subst he
        simp only [is_temp_publish, Bool.and_eq_true, decide_eq_true_eq] at ht
        exact ht.1.symm
      · by_cases hd : devOk (set_target_command (i % 256) (getTarget ts (i % 256)))
        · simp only [hm, hd, if_true, Bool.false_eq_true, if_false, List.mem_cons,
            List.not_mem_nil, or_false] at he
          rcases he with h | h | h | h | h | h
          · subst h; exact Bool.noConfusion ht
          · subst h; exact Bool.noConfusion ht
          · subst h
            simp only [is_temp_publish, Bool.and_eq_true, decide_eq_true_eq] at ht
            exact absurd ht.2 (by decide)
          · subst h
            simp only [is_temp_publish, Bool.and_eq_true, decide_eq_true_eq] at ht
            exact absurd ht.2 (by decide)
          · subst h
            simp only [is_temp_publish, Bool.and_eq_true, decide_eq_true_eq] at ht
            exact absurd ht.2 (by decide)
          · subst h
            simp only [is_temp_publish, Bool.and_eq_true, decide_eq_true_eq] at ht
            exact ht.1.symm
        · simp only [hm, hd, Bool.false_eq_true, if_false, List.mem_cons,
            List.not_mem_nil, or_false] at he
          rcases he with h | h
          · subst h; exact Bool.noConfusion ht
          · subst h; exact Bool.noConfusion ht
  | none =>
      by_cases hm : probe_node_id i ∈ nodes
      · simp only [hm, if_true, List.mem_singleton] at he
        subst he
        cases ht
      · simp only [hm, Bool.false_eq_true, if_false, List.not_mem_nil] at he

theorem probe_slot_fresh_ok (devOk : DeviceCommand → Bool) (nodes : List String)
    (ts : TargetState) (i : Nat) (t : ℚ) (hn : probe_node_id i ∉ nodes)
    (hd : devOk (set_target_command (i % 256) (getTarget ts (i % 256))) = true) :
    probe_slot devOk nodes ts i (Option.some t) =
      ⟨probe_node_id i :: nodes, ensureTarget ts (i % 256),
        [Event.homie (HomieOp.addNode (probe_node_id i)),
         Event.cmd (set_target_command (i % 256) (getTarget ts (i % 256))),
         Event.homie (HomieOp.publishValue (probe_node_id i) PROPERTY_ID_TARGET_MODE
           (PValue.mode (getTarget ts (i % 256)).mode)),
         Event.homie (HomieOp.publishValue (probe_node_id i)
           PROPERTY_ID_TARGET_TEMPERATURE_MIN
           (PValue.float (getTarget ts (i % 256)).temperature_min)),
         Event.homie (HomieOp.publishValue (probe_node_id i)
           PROPERTY_ID_TARGET_TEMPERATURE_MAX
           (PValue.float (getTarget ts (i % 256)).temperature_max)),
         Event.homie (HomieOp.publishValue (probe_node_id i) PROPERTY_ID_TEMPERATURE
           (PValue.float t))], true⟩ := by
  simp [probe_slot, hn, hd]

theorem probe_slot_fresh_fail (devOk : DeviceCommand → Bool) (nodes : List String)
    (ts : TargetState) (i : Nat) (t : ℚ) (hn : probe_node_id i ∉ nodes)
    (hd : devOk (set_target_command (i % 256) (getTarget ts (i % 256))) = false) :
    probe_slot devOk nodes ts i (Option.some t) =
      ⟨probe_node_id i :: nodes, ensureTarget ts (i % 256),
        [Event.homie (HomieOp.addNode (probe_node_id i)),
         Event.cmd (set_target_command (i % 256) (getTarget ts (i % 256)))],
        false⟩ := by
  simp [probe_slot, hn, hd]

theorem run_slots_restore (devOk : DeviceCommand → Bool) :
    ∀ (rest : List (Option ℚ)) (nodes : List String) (ts : TargetState)
      (i k : Nat) (t : ℚ),
      rest[k]? = Option.some (Option.some t) →
      probe_node_id (i + k) ∉ nodes →
      ∀ j e, (run_slots devOk nodes ts i rest).events[j]? = Option.some e →
        is_temp_publish (probe_node_id (i + k)) e = true →
        Event.homie (HomieOp.addNode (probe_node_id (i + k)))
            ∈ (run_slots devOk nodes ts i rest).events.take j ∧
        Event.cmd (set_target_command ((i + k) % 256) (getTarget ts ((i + k) % 256)))
            ∈ (run_slots devOk nodes ts i rest).events.take j ∧
        Event.homie (HomieOp.publishValue (probe_node_id (i + k))
            PROPERTY_ID_TARGET_MODE (PValue.mode (getTarget ts ((i + k) % 256)).mode))
            ∈ (run_slots devOk nodes ts i rest).events.take j ∧
        Event.homie (HomieOp.publishValue (probe_node_id (i + k))
            PROPERTY_ID_TARGET_TEMPERATURE_MIN
            (PValue.float (getTarget ts ((i + k) % 256)).temperature_min))
            ∈ (run_slots devOk nodes ts i rest).events.take j ∧
        Event.homie (HomieOp.publishValue (probe_node_id (i + k))
            PROPERTY_ID_TARGET_TEMPERATURE_MAX
            (PValue.float (getTarget ts ((i + k) % 256)).temperature_max))
            ∈ (run_slots devOk nodes ts i rest).events.take j := by
  intro rest
  induction rest with
  | nil =>
      intro nodes ts i k t hk
      simp at hk
  | cons t0 rest ih =>
      intro nodes ts i k t hk hn j e hj he
      cases k with
      | zero =>
          simp only [List.getElem?_cons_zero, Option.some.injEq] at hk
          subst hk
          simp only [Nat.add_zero] at hn he ⊢
          by_cases hd : devOk (set_target_command (i % 256) (getTarget ts (i % 256)))
          · have hps := probe_slot_fresh_ok devOk nodes ts i t hn hd
            unfold run_slots at hj ⊢
            rw [hps] at hj ⊢
            simp only [eq_self_iff_true, if_true, List.cons_append, List.nil_append] at hj ⊢
            by_cases hj5 : j < 5
            · exfalso
              interval_cases j <;> simp only [List.getElem?_cons_zero,
                List.getElem?_cons_succ, Option.some.injEq] at hj <;> subst hj
              · exact Bool.noConfusion he
              · exact Bool.noConfusion he
              · simp only [is_temp_publish, Bool.and_eq_true, decide_eq_true_eq] at he
                exact absurd he.2 (by decide)
              · simp only [is_temp_publish, Bool.and_eq_true, decide_eq_true_eq] at he
                exact absurd he.2 (by decide)
              · simp only [is_temp_publish, Bool.and_eq_true, decide_eq_true_eq] at he
                exact absurd he.2 (by decide)
            · have h5 : 5 ≤ j := by omega
              refine ⟨?_, ?_, ?_, ?_, ?_⟩
              · exact mem_take_of_getElem _ 0 j _ (by simp) (by omega)
              · exact mem_take_of_getElem _ 1 j _ (by simp) (by omega)
              · exact mem_take_of_getElem _ 2 j _ (by simp) (by omega)
              · exact mem_take_of_getElem _ 3 j _ (by simp) (by omega)
              · exact mem_take_of_getElem _ 4 j _ (by simp) (by omega)
          · have hps := probe_slot_fresh_fail devOk nodes ts i t hn
              (by simpa using hd)
            unfold run_slots at hj
            rw [hps] at hj
            simp only [Bool.false_eq_true, if_false] at hj
            exfalso
            match j, hj with
            | 0, hj =>
                simp only [List.getElem?_cons_zero, Option.some.injEq] at hj
                subst hj
                exact Bool.noConfusion he
            | 1, hj =>
                simp only [List.getElem?_cons_succ, List.getElem?_cons_zero,
                  Option.some.injEq] at hj
                subst hj
                exact Bool.noConfusion he
            | (m + 2), hj =>
                simp at hj
      | succ k =>
          have hshift : i + (k + 1) = (i + 1) + k := by omega
          have hk' : rest[k]? = Option.some (Option.some t) := by simpa using hk
          have hne : probe_node_id ((i + 1) + k) ≠ probe_node_id i := by
            intro heq
            have := probe_node_id_inj heq
            omega
          rw [hshift] at hn he ⊢
          have hn' : probe_node_id ((i + 1) + k) ∉
              (probe_slot devOk nodes ts i t0).nodes := by
            rw [probe_slot_nodes_other devOk nodes ts i t0 _ hne]
            exact hn
          unfold run_slots at hj ⊢
          by_cases hrok : (probe_slot devOk nodes ts i t0).ok
          · simp only [hrok, if_true] at hj ⊢
            by_cases hjlen : j < (probe_slot devOk nodes ts i t0).events.length
            · exfalso
              have hj' : (probe_slot devOk nodes ts i t0).events[j]? = Option.some e := by
                rw [List.getElem?_append] at hj
                rwa [if_pos hjlen] at hj
              have hmem := List.getElem?_mem hj'
              have := probe_slot_temp_publish devOk nodes ts i t0 _ e hmem he
              exact hne this
            · have hlen : (probe_slot devOk nodes ts i t0).events.length ≤ j := by omega
              have hj' : (run_slots devOk (probe_slot devOk nodes ts i t0).nodes
                  (probe_slot devOk nodes ts i t0).targets (i + 1) rest).events[
                    j - (probe_slot devOk nodes ts i t0).events.length]? =
                  Option.some e := by
                rw [List.getElem?_append_right hlen] at hj
                exact hj
              have hres := ih (probe_slot devOk nodes ts i t0).nodes
                (probe_slot devOk nodes ts i t0).targets (i + 1) k t hk' hn'
                (j - (probe_slot devOk nodes ts i t0).events.length) e hj' he
              rw [probe_slot_targets devOk nodes ts i t0] at hres
              exact ⟨mem_take_append _ _ j _ hres.1,
                mem_take_append _ _ j _ hres.2.1,
                mem_take_append _ _ j _ hres.2.2.1,
                mem_take_append _ _ j _ hres.2.2.2.1,
                mem_take_append _ _ j _ hres.2.2.2.2⟩
          · exfalso
            simp only [hrok, Bool.false_eq_true, if_false] at hj
            have hmem := List.getElem?_mem hj
            have := probe_slot_temp_publish devOk nodes ts i t0 _ e hmem he
            exact hne this

theorem parse_target_field_idem (property_id value : String) (t t1 : Target)
    (h : parse_target_field property_id value t = Option.some t1) :
    parse_target_field property_id value t1 = Option.some t1 := by
  unfold parse_target_field at h ⊢
  by_cases h1 : property_id = PROPERTY_ID_TARGET_TEMPERATURE_MIN
  · rw [if_pos h1] at h ⊢
    cases hx : parse_float value with
    | none => rw [hx] at h; exact absurd h (by simp)
    | some x =>
        rw [hx] at h
        simp only [Option.map_some', Option.some.injEq] at h
        subst h
        rfl
  · rw [if_neg h1] at h ⊢
    by_cases h2 : property_id = PROPERTY_ID_TARGET_TEMPERATURE_MAX
    · rw [if_pos h2] at h ⊢
      cases hx : parse_float value with
      | none => rw [hx] at h; exact absurd h (by simp)
      | some x =>
          rw [hx] at h
          simp only [Option.map_some', Option.some.injEq] at h
          subst h
          rfl
    · rw [if_neg h2] at h ⊢
      by_cases h3 : property_id = PROPERTY_ID_TARGET_MODE
      · rw [if_pos h3] at h ⊢
        cases hx : TargetMode.fromStr value with
        | none => rw [hx] at h; exact absurd h (by simp)
        | some m =>
            rw [hx] at h
            simp only [Option.map_some', Option.some.injEq] at h
            subst h
            rfl
      · rw [if_neg h3] at h
        exact absurd h (by simp)

/-! ### Claim theorems -/

/-- C1 (restore-before-publish): for a telemetry frame carrying a reading for
probe slot `p` whose node does not yet exist, the frame's trace creates the
probe node, issues the `set_target` device command for the cached target of
`p`, and publishes the cached mode, `target_min` and `target_max` onto the
node's target properties, all strictly before any publish of that node's
temperature. -/
theorem restore_before_first_temperature (devOk : DeviceCommand → Bool)
    (nodes : List String) (ts : TargetState) (temps : List (Option ℚ))
    (p : Nat) (t : ℚ) (j : Nat) (e : Event)
    (hp : temps[p]? = Option.some (Option.some t))
    (hn : probe_node_id p ∉ nodes)
    (hj : (handle_realtime_data devOk nodes ts ⟨temps⟩).events[j]? = Option.some e)
    (he : is_temp_publish (probe_node_id p) e = true) :
    Event.homie (HomieOp.addNode (probe_node_id p))
        ∈ (handle_realtime_data devOk nodes ts ⟨temps⟩).events.take j ∧
    Event.cmd (set_target_command (p % 256) (getTarget ts (p % 256)))
        ∈ (handle_realtime_data devOk nodes ts ⟨temps⟩).events.take j ∧
    Event.homie (HomieOp.publishValue (probe_node_id p) PROPERTY_ID_TARGET_MODE
        (PValue.mode (getTarget ts (p % 256)).mode))
        ∈ (handle_realtime_data devOk nodes ts ⟨temps⟩).events.take j ∧
    Event.homie (HomieOp.publishValue (probe_node_id p)
        PROPERTY_ID_TARGET_TEMPERATURE_MIN
        (PValue.float (getTarget ts (p % 256)).temperature_min))
        ∈ (handle_realtime_data devOk nodes ts ⟨temps⟩).events.take j ∧
    Event.homie (HomieOp.publishValue (probe_node_id p)
        PROPERTY_ID_TARGET_TEMPERATURE_MAX
        (PValue.float (getTarget ts (p % 256)).temperature_max))
        ∈ (handle_realtime_data devOk nodes ts ⟨temps⟩).events.take j := by
  have h := run_slots_restore devOk temps nodes ts 0 p t
    (by simpa using hp) (by simpa using hn) j e
    (by simpa [handle_realtime_data] using hj)
    (by simpa using he)
  simpa [handle_realtime_data] using h

/-- Witness for C1, following the spec scenario: writes set probe 0's target
to mode Range with min 10 and max 20; a frame with an absent reading removes
the node; on reappearance the restore publishes precede the temperature
publish (which sits at index 5 of the trace). -/
theorem restore_before_first_temperature_witness :
    (handle_update (fun _ => true)
      (handle_update (fun _ => true)
        (handle_update (fun _ => true) ([] : TargetState)
          ("probe0") ("target_min") ("10")).state
        ("probe0") ("target_max") ("20")).state
      ("probe0") ("mode") ("Range")).state =
        [(0, ⟨TargetMode.range, 10, 20⟩)] ∧
    (handle_realtime_data (fun _ => true) [probe_node_id 0]
      [(0, ⟨TargetMode.range, 10, 20⟩)] ⟨[Option.none]⟩).nodes = [] ∧
    (Event.homie (HomieOp.addNode (probe_node_id 0))
        ∈ (handle_realtime_data (fun _ => true) []
            [(0, ⟨TargetMode.range, 10, 20⟩)] ⟨[Option.some 25]⟩).events.take 5 ∧
     Event.cmd (set_target_command (0 % 256)
        (getTarget [(0, ⟨TargetMode.range, 10, 20⟩)] (0 % 256)))
        ∈ (handle_realtime_data (fun _ => true) []
            [(0, ⟨TargetMode.range, 10, 20⟩)] ⟨[Option.some 25]⟩).events.take 5 ∧
     Event.homie (HomieOp.publishValue (probe_node_id 0) PROPERTY_ID_TARGET_MODE
        (PValue.mode (getTarget [(0, ⟨TargetMode.range, 10, 20⟩)] (0 % 256)).mode))
        ∈ (handle_realtime_data (fun _ => true) []
            [(0, ⟨TargetMode.range, 10, 20⟩)] ⟨[Option.some 25]⟩).events.take 5 ∧
     Event.homie (HomieOp.publishValue (probe_node_id 0)
        PROPERTY_ID_TARGET_TEMPERATURE_MIN
        (PValue.float (getTarget [(0, ⟨TargetMode.range, 10, 20⟩)] (0 % 256)).temperature_min))
        ∈ (handle_realtime_data (fun _ => true) []
            [(0, ⟨TargetMode.range, 10, 20⟩)] ⟨[Option.some 25]⟩).events.take 5 ∧
     Event.homie (HomieOp.publishValue (probe_node_id 0)
        PROPERTY_ID_TARGET_TEMPERATURE_MAX
        (PValue.float (getTarget [(0, ⟨TargetMode.range, 10, 20⟩)] (0 % 256)).temperature_max))
        ∈ (handle_realtime_data (fun _ => true) []
            [(0, ⟨TargetMode.range, 10, 20⟩)] ⟨[Option.some 25]⟩).events.take 5) := by
  refine ⟨by decide, by decide, ?_⟩
  exact restore_before_first_temperature (fun _ => true) []
    [(0, ⟨TargetMode.range, 10, 20⟩)] [Option.some 25] 0 25 5
    (Event.homie (HomieOp.publishValue (probe_node_id 0) PROPERTY_ID_TEMPERATURE
      (PValue.float 25)))
    rfl (by simp) (by decide) (by decide)

/-- C2 (probe-target write dispatch): the probe index is recovered from the
numeric suffix of the node id after the fixed prefix (round trip through
`probe_node_id`); an unparseable value is rejected with no device command;
otherwise the store entry for the probe is updated and exactly one device
command matching the resulting mode is issued — remove-target for mode None,
set-target-temp from `temperature_max` only for SingleMax, set-target-range
over min and max for Range — and on command success the written value is
echoed. -/
theorem probe_write_dispatch (devOk : DeviceCommand → Bool) (ts : TargetState)
    (node_id property_id value : String) (i : Nat)
    (hi : probe_id_to_index node_id = Option.some i)
    (hpid : property_id = PROPERTY_ID_TARGET_TEMPERATURE_MIN ∨
            property_id = PROPERTY_ID_TARGET_TEMPERATURE_MAX ∨
            property_id = PROPERTY_ID_TARGET_MODE) :
    probe_id_to_index (probe_node_id i) = Option.some i ∧
    (parse_target_field property_id value (getTarget ts i) = Option.none →
      handle_update devOk ts node_id property_id value =
        ⟨ensureTarget ts i, Option.none, Option.none⟩) ∧
    (∀ t1, parse_target_field property_id value (getTarget ts i) = Option.some t1 →
      handle_update devOk ts node_id property_id value =
        ⟨upsertTarget ts i t1, Option.some (set_target_command i t1),
          if devOk (set_target_command i t1) then Option.some value
          else Option.none⟩ ∧
      (t1.mode = TargetMode.none →
        set_target_command i t1 = DeviceCommand.removeTarget i) ∧
      (t1.mode = TargetMode.single →
        set_target_command i t1 = DeviceCommand.setTargetTemp i t1.temperature_max) ∧
      (t1.mode = TargetMode.range →
        set_target_command i t1 =
          DeviceCommand.setTargetRange i t1.temperature_min t1.temperature_max)) := by
  refine ⟨probe_id_to_index_roundtrip i (probe_id_to_index_le node_id i hi), ?_, ?_⟩
  · intro h
    rw [handle_update_probe devOk ts node_id property_id value i hi hpid, h]
  · intro t1 h
    rw [handle_update_probe devOk ts node_id property_id value i hi hpid, h]
    refine ⟨rfl, ?_, ?_, ?_⟩ <;> intro hm <;> simp [set_target_command, hm]

/-- Witness for C2: a write of mode Range to node `probe3` on an empty store
updates the cached entry and issues exactly the range command. -/
theorem probe_write_dispatch_witness :
    probe_id_to_index ("probe3") = Option.some 3 ∧
    handle_update (fun _ => true) [] ("probe3") ("mode") ("Range") =
      ⟨[(3, ⟨TargetMode.range, 0, 0⟩)],
       Option.some (DeviceCommand.setTargetRange 3 0 0),
       Option.some ("Range")⟩ := by
  have h := probe_write_dispatch (fun _ => true) [] ("probe3") ("mode") ("Range") 3
    (by decide) (Or.inr (Or.inr rfl))
  refine ⟨by decide, ?_⟩
  have h2 := (h.2.2 ⟨TargetMode.range, 0, 0⟩ (by decide)).1
  rw [h2]
  rfl

/-- C3 (node existence invariant): after a telemetry frame is processed to
completion, a probe node for slot `p` covered by the frame exists if and only
if the frame reported a non-absent temperature for `p`; and processing a frame
never changes any observable Target Store entry, so cached targets outlive
node removal. -/
theorem node_presence_iff_reading (devOk : DeviceCommand → Bool)
    (nodes : List String) (ts : TargetState) (temps : List (Option ℚ))
    (p q : Nat) (hnd : nodes.Nodup) (hp : p < temps.length) :
    ((handle_realtime_data devOk nodes ts ⟨temps⟩).ok = true →
      (probe_node_id p ∈ (handle_realtime_data devOk nodes ts ⟨temps⟩).nodes ↔
        ∃ t, temps[p]? = Option.some (Option.some t))) ∧
    getTarget (handle_realtime_data devOk nodes ts ⟨temps⟩).targets q =
      getTarget ts q := by
  constructor
  · intro hok
    have h := run_slots_mem_iff devOk temps nodes ts 0 p hnd
      (by simpa [handle_realtime_data] using hok) hp
    simpa [handle_realtime_data] using h
  · exact run_slots_targets devOk temps nodes ts 0 q

/-- Witness for C3: a frame `[present, absent]` processed from a state where
only `probe1` exists removes `probe1` (the iff at slot 1 has both sides
false) and leaves the empty Target Store observably unchanged. -/
theorem node_presence_iff_reading_witness :
    ((handle_realtime_data (fun _ => true) [probe_node_id 1] []
        ⟨[Option.some 20, Option.none]⟩).ok = true →
      (probe_node_id 1 ∈ (handle_realtime_data (fun _ => true) [probe_node_id 1] []
          ⟨[Option.some 20, Option.none]⟩).nodes ↔
        ∃ t, ([Option.some (20:ℚ), Option.none])[1]? =
          Option.some (Option.some t))) ∧
    getTarget (handle_realtime_data (fun _ => true) [probe_node_id 1] []
        ⟨[Option.some 20, Option.none]⟩).targets 0 = getTarget [] 0 :=
  node_presence_iff_reading (fun _ => true) [probe_node_id 1] []
    [Option.some 20, Option.none] 1 0 (by simp) (by simp)

/-- C4 (write failure handling): for a probe-target write, a validation
failure short-circuits — no device command, no echo, no observable store
change; a device-command failure after a valid write yields no echo, yet the
already-mutated store entry keeps the newly written value (no rollback). -/
theorem write_failure_policy (devOk : DeviceCommand → Bool) (ts : TargetState)
    (node_id property_id value : String) (i : Nat)
    (hi : probe_id_to_index node_id = Option.some i)
    (hpid : property_id = PROPERTY_ID_TARGET_TEMPERATURE_MIN ∨
            property_id = PROPERTY_ID_TARGET_TEMPERATURE_MAX ∨
            property_id = PROPERTY_ID_TARGET_MODE) :
    (parse_target_field property_id value (getTarget ts i) = Option.none →
      (handle_update devOk ts node_id property_id value).command = Option.none ∧
      (handle_update devOk ts node_id property_id value).echo = Option.none ∧
      (∀ q, getTarget (handle_update devOk ts node_id property_id value).state q =
        getTarget ts q)) ∧
    (∀ t1, parse_target_field property_id value (getTarget ts i) = Option.some t1 →
      devOk (set_target_command i t1) = false →
      (handle_update devOk ts node_id property_id value).echo = Option.none ∧
      (handle_update devOk ts node_id property_id value).command =
        Option.some (set_target_command i t1) ∧
      getTarget (handle_update devOk ts node_id property_id value).state i = t1) := by
  constructor
  · intro h
    rw [handle_update_probe devOk ts node_id property_id value i hi hpid, h]
    exact ⟨rfl, rfl, fun q => getTarget_ensure ts i q⟩
  · intro t1 h hdev
    rw [handle_update_probe devOk ts node_id property_id value i hi hpid, h]
    refine ⟨?_, rfl, getTarget_upsert_self ts i t1⟩
    simp [hdev]

/-- Witness for C4: with a failing device, a valid `target_min = 10` write to
`probe0` issues the remove-target command (cached mode is still None), echoes
nothing, and the cached entry still holds the new minimum 10. -/
theorem write_failure_policy_witness :
    (handle_update (fun _ => false) [] ("probe0") ("target_min") ("10")).echo =
      Option.none ∧
    (handle_update (fun _ => false) [] ("probe0") ("target_min") ("10")).command =
      Option.some (DeviceCommand.removeTarget 0) ∧
    getTarget (handle_update (fun _ => false) [] ("probe0") ("target_min") ("10")).state 0 =
      ⟨TargetMode.none, 10, 0⟩ := by
  have h := write_failure_policy (fun _ => false) [] ("probe0") ("target_min") ("10") 0
    (by decide) (Or.inl rfl)
  have h2 := h.2 ⟨TargetMode.none, 10, 0⟩ (by decide) (by decide)
  exact ⟨h2.1, by rw [h2.2.1]; rfl, h2.2.2⟩

/-- C5 (alarm write policy): on the settings node's alarm property, a value
parsing as `true` is always rejected with no device command and no echo; a
value parsing as `false` always issues the silence-alarm command — no alarm
precondition exists, the result is the same for every store state — echoing
on command success; an unparseable value is rejected. -/
theorem alarm_write_policy (devOk : DeviceCommand → Bool) (ts : TargetState)
    (value : String) :
    (parse_bool value = Option.some true →
      handle_update devOk ts NODE_ID_SETTINGS PROPERTY_ID_ALARM value =
        ⟨ts, Option.none, Option.none⟩) ∧
    (parse_bool value = Option.some false →
      handle_update devOk ts NODE_ID_SETTINGS PROPERTY_ID_ALARM value =
        ⟨ts, Option.some DeviceCommand.silenceAlarm,
          if devOk DeviceCommand.silenceAlarm then Option.some value
          else Option.none⟩) ∧
    (parse_bool value = Option.none →
      handle_update devOk ts NODE_ID_SETTINGS PROPERTY_ID_ALARM value =
        ⟨ts, Option.none, Option.none⟩) := by
  have h1 : ¬(NODE_ID_SETTINGS = NODE_ID_SETTINGS ∧
      PROPERTY_ID_ALARM = PROPERTY_ID_DISPLAY_UNIT) := fun hc => absurd hc.2 (by decide)
  unfold handle_update
  rw [if_neg h1, if_pos ⟨rfl, rfl⟩]
  refine ⟨?_, ?_, ?_⟩ <;> intro h <;> rw [h]

/-- Witness for C5: `alarm = true` is rejected outright; `alarm = false`
silences and echoes even though no alarm state is consulted. -/
theorem alarm_write_policy_witness :
    parse_bool ("true") = Option.some true ∧
    handle_update (fun _ => true) [] NODE_ID_SETTINGS PROPERTY_ID_ALARM ("true") =
      ⟨[], Option.none, Option.none⟩ ∧
    parse_bool ("false") = Option.some false ∧
    handle_update (fun _ => true) [] NODE_ID_SETTINGS PROPERTY_ID_ALARM ("false") =
      ⟨[], Option.some DeviceCommand.silenceAlarm, Option.some ("false")⟩ := by
  refine ⟨by decide, ?_, by decide, ?_⟩
  · exact (alarm_write_policy (fun _ => true) [] ("true")).1 (by decide)
  · have h := (alarm_write_policy (fun _ => true) [] ("false")).2.1 (by decide)
    rw [h]
    rfl

/-- C6 (idempotence): handling the same probe-target write twice in a row
gives a second result identical to the first — same issued device command,
same echo, and the same final Target Store (no accumulation or drift). -/
theorem probe_write_idempotent (devOk : DeviceCommand → Bool) (ts : TargetState)
    (node_id property_id value : String) (i : Nat)
    (hi : probe_id_to_index node_id = Option.some i)
    (hpid : property_id = PROPERTY_ID_TARGET_TEMPERATURE_MIN ∨
            property_id = PROPERTY_ID_TARGET_TEMPERATURE_MAX ∨
            property_id = PROPERTY_ID_TARGET_MODE) :
    handle_update devOk (handle_update devOk ts node_id property_id value).state
        node_id property_id value =
      handle_update devOk ts node_id property_id value := by
  cases hpf : parse_target_field property_id value (getTarget ts i) with
  | none =>
      rw [handle_update_probe devOk ts node_id property_id value i hi hpid, hpf]
      rw [handle_update_probe devOk (ensureTarget ts i) node_id property_id value i hi hpid]
      rw [getTarget_ensure ts i i, hpf, ensure_ensure]
  | some t1 =>
      rw [handle_update_probe devOk ts node_id property_id value i hi hpid, hpf]
      rw [handle_update_probe devOk (upsertTarget ts i t1) node_id property_id value i hi hpid]
      rw [getTarget_upsert_self ts i t1,
        parse_target_field_idem property_id value (getTarget ts i) t1 hpf]
      simp only [upsert_upsert]

/-- Witness for C6: a repeated `mode = Range` write to `probe0` yields the
identical result both times. -/
theorem probe_write_idempotent_witness :
    handle_update (fun _ => true)
        (handle_update (fun _ => true) [] ("probe0") ("mode") ("Range")).state
        ("probe0") ("mode") ("Range") =
      handle_update (fun _ => true) [] ("probe0") ("mode") ("Range") :=
  probe_write_idempotent (fun _ => true) [] ("probe0") ("mode") ("Range") 0
    (by decide) (Or.inr (Or.inr rfl))

/-- C7 (battery percentage): for a battery-level result with positive maximum
voltage (both voltages in the `u16` range, so the `u32` product cannot
overflow), the published percentage is the truncating integer quotient
`current_voltage * 100 / max_voltage`, which equals the floor of the exact
rational quotient. -/
theorem battery_percentage_floor (cv mv : Nat) (hmv : 0 < mv)
    (_hcv16 : cv < 65536) (_hmv16 : mv < 65536) :
    handle_setting_result (SettingResult.batteryLevel cv mv) =
      Option.some
        [HomieOp.publishValue NODE_ID_BATTERY PROPERTY_ID_VOLTAGE (PValue.int cv),
         HomieOp.publishValue NODE_ID_BATTERY PROPERTY_ID_PERCENTAGE
           (PValue.int (cv * 100 / mv))] ∧
    cv * 100 / mv = ⌊((cv * 100 : Nat) : ℚ) / (mv : ℚ)⌋₊ := by
  constructor
  · simp [handle_setting_result, Nat.pos_iff_ne_zero.mp hmv]
  · rw [Nat.floor_div_nat ((cv * 100 : Nat) : ℚ) mv, Nat.floor_natCast]

/-- Witness for C7: `current_voltage = 310`, `max_voltage = 400` publishes
percentage 77 (truncation of 77.5), not 78. -/
theorem battery_percentage_floor_witness :
    handle_setting_result (SettingResult.batteryLevel 310 400) =
      Option.some
        [HomieOp.publishValue NODE_ID_BATTERY PROPERTY_ID_VOLTAGE (PValue.int 310),
         HomieOp.publishValue NODE_ID_BATTERY PROPERTY_ID_PERCENTAGE (PValue.int 77)] ∧
    (310 * 100 / 400 : Nat) = 77 := by
  have h := battery_percentage_floor 310 400 (by norm_num) (by norm_num) (by norm_num)
  exact ⟨by rw [h.1], by decide⟩

/-- C9 (unguarded battery division): the percentage computation divides by
`max_voltage` with no guard — at `max_voltage = 0` the handler panics and
publishes nothing (modelled as `Option.none`), and it is total exactly under
the precondition `max_voltage > 0`. -/
theorem battery_divide_by_zero (cv mv : Nat) (hmv : mv ≠ 0) :
    handle_setting_result (SettingResult.batteryLevel cv 0) = Option.none ∧
    (handle_setting_result (SettingResult.batteryLevel cv mv)).isSome = true := by
  constructor
  · simp [handle_setting_result]
  · simp [handle_setting_result, hmv]

/-- Witness for C9: `max_voltage = 0` panics; `max_voltage = 400` publishes. -/
theorem battery_divide_by_zero_witness :
    handle_setting_result (SettingResult.batteryLevel 310 0) = Option.none ∧
    (handle_setting_result (SettingResult.batteryLevel 310 400)).isSome = true :=
  battery_divide_by_zero 310 400 (by decide)

/-- C8 (mode None retains bounds): a probe-target write setting the mode to
None leaves the cached `temperature_min` and `temperature_max` unchanged (and
clears the target on the device with a remove-target command), so a later
switch back to SingleMax or Range reuses the retained values. -/
theorem mode_none_retains_min_max (devOk : DeviceCommand → Bool)
    (ts : TargetState) (node_id value : String) (i : Nat)
    (hi : probe_id_to_index node_id = Option.some i)
    (hv : TargetMode.fromStr value = Option.some TargetMode.none) :
    getTarget (handle_update devOk ts node_id PROPERTY_ID_TARGET_MODE value).state i =
      ⟨TargetMode.none, (getTarget ts i).temperature_min,
        (getTarget ts i).temperature_max⟩ ∧
    (handle_update devOk ts node_id PROPERTY_ID_TARGET_MODE value).command =
      Option.some (DeviceCommand.removeTarget i) := by
  rw [handle_update_probe devOk ts node_id PROPERTY_ID_TARGET_MODE value i hi
    (Or.inr (Or.inr rfl))]
  have hp : parse_target_field PROPERTY_ID_TARGET_MODE value (getTarget ts i) =
      Option.some ⟨TargetMode.none, (getTarget ts i).temperature_min,
        (getTarget ts i).temperature_max⟩ := by
    unfold parse_target_field
    rw [if_neg (by decide), if_neg (by decide), if_pos rfl, hv]
    rfl
  rw [hp]
  exact ⟨getTarget_upsert_self ts i _, rfl⟩

/-- Witness for C8: writing `mode = None` on a cached Range target with
min 10 and max 20 keeps 10 and 20 in the store and issues remove-target. -/
theorem mode_none_retains_min_max_witness :
    getTarget (handle_update (fun _ => true) [(0, ⟨TargetMode.range, 10, 20⟩)]
        ("probe0") PROPERTY_ID_TARGET_MODE ("None")).state 0 =
      ⟨TargetMode.none, 10, 20⟩ ∧
    (handle_update (fun _ => true) [(0, ⟨TargetMode.range, 10, 20⟩)]
        ("probe0") PROPERTY_ID_TARGET_MODE ("None")).command =
      Option.some (DeviceCommand.removeTarget 0) := by
  have h := mode_none_retains_min_max (fun _ => true)
    [(0, ⟨TargetMode.range, 10, 20⟩)] ("probe0") ("None") 0 (by decide) (by decide)
  exact ⟨by rw [h.1]; decide, h.2⟩

/-- C10 (connect name unwrap): `connect` unwraps the Bluetooth device name
before consulting the configuration, so an absent Bluetooth name panics even
when the configuration supplies a name; when the Bluetooth name is present,
the configured name takes precedence over it. -/
theorem connect_name_unwrap (configured : Option String) (n b : String) :
    connect_display_name configured Option.none = Option.none ∧
    connect_display_name (Option.some n) (Option.some b) = Option.some n ∧
    connect_display_name Option.none (Option.some b) = Option.some b :=
  ⟨rfl, rfl, rfl⟩

end Cloudbbq
